import Mathlib

/-!
Verification of the native checksum FFI boundary
(`samples/ffi-python/src/lib.rs`): the exported pair
`get_checksum` / `release_checksum`.

The C-side allocator is modelled as an explicit heap state: a partial map
from block identifiers to allocated blocks, each block recording the
allocator family that produced it and its byte contents.  Pointers are
`Option Nat` (with `none` as the null pointer).  The libc calls
`malloc`, `memset`, `strcpy` and `free` become operations on this heap;
writes and frees are partial (`Option`-valued), returning `none` exactly
on out-of-bounds writes, frees of unallocated blocks, or frees through a
mismatched allocator family, so that "returns `some`" means "no undefined
behaviour".  Bytes are `Nat` (a C `char` value).
-/

/-- Allocator families that can own a heap block.  `libcMalloc` is the
family of libc `malloc`/`free`; `rustGlobal` stands for Rust's global
allocator, present so that allocator-pairing is a real constraint. -/
inductive AllocFamily where
  | libcMalloc
  | rustGlobal
deriving DecidableEq, Repr

/-- A heap block: the allocator family that created it and its bytes. -/
structure Block where
  family : AllocFamily
  bytes : List Nat
deriving DecidableEq, Repr

/-- The heap: a partial map from block ids to blocks, plus the next fresh
block id.  `blocks k = none` means id `k` is unallocated. -/
structure Heap where
  blocks : Nat → Option Block
  next : Nat

/-- Replace (or install) the block at `id`. -/
def Heap.setBlock (h : Heap) (id : Nat) (b : Block) : Heap :=
  { h with blocks := fun k => if k = id then some b else h.blocks k }

/-- Model of libc `malloc`: allocate a fresh block of the given contents
(the contents are indeterminate in C, so they are a parameter here),
tagged with the allocating family; returns the new heap and the block id. -/
def Heap.malloc (h : Heap) (fam : AllocFamily) (contents : List Nat) :
    Heap × Nat :=
  ({ blocks := fun k => if k = h.next then some ⟨fam, contents⟩ else h.blocks k,
     next := h.next + 1 }, h.next)

/-- Model of libc `memset(p, v, n)`: overwrite the first `n` bytes of the
block at `id` with `v`.  Undefined behaviour (`none`) if the block is not
allocated or `n` exceeds its capacity. -/
def memset (h : Heap) (id : Nat) (v : Nat) (n : Nat) : Option Heap :=
  match h.blocks id with
  | none => none
  | some b =>
    if n ≤ b.bytes.length then
      some (h.setBlock id ⟨b.family, List.replicate n v ++ b.bytes.drop n⟩)
    else none

/-- Model of libc `strcpy(dst, src)`: copy the bytes of `src` up to and
including its first NUL into the front of the block at `id`.  Undefined
behaviour (`none`) if the block is not allocated or the copied string
(terminator included) exceeds its capacity. -/
def strcpy (h : Heap) (id : Nat) (src : List Nat) : Option Heap :=
  let s := src.takeWhile (fun c => c != 0) ++ [0]
  match h.blocks id with
  | none => none
  | some b =>
    if s.length ≤ b.bytes.length then
      some (h.setBlock id ⟨b.family, s ++ b.bytes.drop s.length⟩)
    else none

/-- Model of libc `free`: `free(NULL)` is a no-op; freeing an allocated
block removes it, but only if it was allocated by the libc family
(freeing a block owned by another allocator, or an unallocated id, is
undefined behaviour, `none`). -/
def Heap.free (h : Heap) : Option Nat → Option Heap
  | none => some h
  | some id =>
    match h.blocks id with
    | none => none
    | some b =>
      if b.family = AllocFamily.libcMalloc then
        some { h with blocks := fun k => if k = id then none else h.blocks k }
      else none

/-- The byte content of the literal `"abcdef"` passed to `CString::new`. -/
def checksumLit : List Nat := [97, 98, 99, 100, 101, 102]

/-- Model of `CString::new`: fails (`Err`, here `none`) iff the input has
an interior NUL byte; otherwise yields the bytes followed by a NUL. -/
def cstring_new (s : List Nat) : Option (List Nat) :=
  if s.contains 0 then none else some (s ++ [0])

/-- Model of `get_checksum` (lib.rs lines 8–20).  The path argument is a
possibly-null pointer; a null path returns a null buffer with the heap
untouched.  Otherwise the function mallocs 12 bytes (indeterminate
contents supplied by `junk`), zeroes them with `memset`, and `strcpy`s
the NUL-terminated `"abcdef"` into them, returning the buffer pointer.
`none` signals a panic or undefined behaviour along the way. -/
def get_checksum (h : Heap) (junk : Nat → Nat) (filepath : Option Nat) :
    Option (Heap × Option Nat) :=
  match filepath with
  | none => some (h, none)
  | some _ =>
    let (h1, p) := h.malloc AllocFamily.libcMalloc ((List.range 12).map junk)
    do
      let h2 ← memset h1 p 0 12
      let cs ← cstring_new checksumLit
      let h3 ← strcpy h2 p cs
      return (h3, some p)

/-- Model of `release_checksum` (lib.rs lines 23–27): unconditionally
hand the pointer to libc `free`. -/
def release_checksum (h : Heap) (checksum : Option Nat) : Option Heap :=
  h.free checksum

/-- The final contents of the returned buffer: `"abcdef"`, its NUL
terminator, and five zero bytes of slack. -/
def checksumBytes : List Nat := [97, 98, 99, 100, 101, 102, 0, 0, 0, 0, 0, 0]

/-- C string length: bytes before the first NUL. -/
def cstrlen (l : List Nat) : Nat := (l.takeWhile (fun c => c != 0)).length

/-- Iterated `release_checksum` on the null pointer. -/
def release_null_iter (h : Heap) : Nat → Option Heap
  | 0 => some h
  | n + 1 => (release_checksum h none).bind (fun h2 => release_null_iter h2 n)

theorem Heap.ext' {h1 h2 : Heap} (hb : ∀ k, h1.blocks k = h2.blocks k)
    (hn : h1.next = h2.next) : h1 = h2 := by
  cases h1; cases h2
  simp only [Heap.mk.injEq]
  exact ⟨funext hb, hn⟩

/-- Closed form of `get_checksum` on a non-null path: it always succeeds,
returns the previously-fresh block id, and the final heap is the original
heap plus that one block, holding `checksumBytes`, tagged `libcMalloc`. -/
theorem get_checksum_some_eq (h : Heap) (junk : Nat → Nat) (pid : Nat) :
    get_checksum h junk (some pid) =
      some ({ blocks := fun k =>
                if k = h.next then some ⟨AllocFamily.libcMalloc, checksumBytes⟩
                else h.blocks k,
              next := h.next + 1 }, some h.next) := by
  simp only [get_checksum, Heap.malloc, memset, strcpy, cstring_new,
    checksumLit, Heap.setBlock, checksumBytes]
  norm_num [List.drop_eq_nil_of_le, Option.bind]
  funext k
  by_cases hk : k = h.next <;> simp [hk, List.replicate_succ]

/-- The empty heap: nothing allocated. -/
def emptyHeap : Heap := ⟨fun _ => none, 0⟩

/-- A caller-side path block holding the bytes of `"/tmp"` with its NUL
terminator, owned by the caller's allocator. -/
def pathBlock : Block := ⟨AllocFamily.rustGlobal, [47, 116, 109, 112, 0]⟩

/-- A heap in which the caller's path string is allocated at id 0. -/
def pathHeap : Heap := ⟨fun k => if k = 0 then some pathBlock else none, 1⟩

/-- C1: for every non-null path input, `get_checksum` returns a non-null
buffer of allocated capacity 12 bytes whose content is the placeholder
string `"abcdef"` followed by a NUL terminator, with the remaining bytes
(indices 7 through 11) zero-filled. -/
theorem C1_get_checksum_nonnull_content (h : Heap) (junk : Nat → Nat)
    (pid : Nat) :
    ∃ h2 q, get_checksum h junk (some pid) = some (h2, some q) ∧
      h2.blocks q = some ⟨AllocFamily.libcMalloc, checksumBytes⟩ ∧
      checksumBytes.length = 12 ∧
      checksumBytes.take 7 = checksumLit ++ [0] ∧
      checksumBytes.drop 7 = List.replicate 5 0 := by
  refine ⟨_, h.next, get_checksum_some_eq h junk pid, by simp,
    by decide, by decide, by decide⟩

/-- C2: for every null path input, `get_checksum` returns a null buffer,
leaves the heap exactly unchanged (zero allocations), and raises no
error. -/
theorem C2_get_checksum_null (h : Heap) (junk : Nat → Nat) :
    get_checksum h junk none = some (h, none) := rfl

/-- C3: `release_checksum` on the null pointer is a no-op that never
crashes and leaves the heap unchanged, and it can be repeated any number
of times with the same (absent) effect. -/
theorem C3_release_null_noop (h : Heap) (n : Nat) :
    release_checksum h none = some h ∧ release_null_iter h n = some h := by
  refine ⟨rfl, ?_⟩
  induction n with
  | zero => rfl
  | succ m ih =>
    simpa [release_null_iter, release_checksum, Heap.free] using ih

/-- C4: every non-null buffer returned by `get_checksum` belongs to the
libc `malloc` allocator family, the same family `release_checksum` frees
with, so releasing it never trips the allocator-mismatch check. -/
theorem C4_allocator_family (h : Heap) (junk : Nat → Nat) (pid : Nat) :
    ∃ h2 q blk, get_checksum h junk (some pid) = some (h2, some q) ∧
      h2.blocks q = some blk ∧ blk.family = AllocFamily.libcMalloc ∧
      (release_checksum h2 (some q)).isSome := by
  refine ⟨_, h.next, ⟨AllocFamily.libcMalloc, checksumBytes⟩,
    get_checksum_some_eq h junk pid, by simp, rfl, ?_⟩
  simp [release_checksum, Heap.free]

/-- C5: round-trip — releasing the buffer returned by `get_checksum`
exactly once succeeds (no crash) and restores the heap's allocation map
to exactly what it was before the compute call (no leak). -/
theorem C5_roundtrip (h : Heap) (junk : Nat → Nat) (pid : Nat)
    (hwf : h.blocks h.next = none) :
    ∃ h2 q h3, get_checksum h junk (some pid) = some (h2, some q) ∧
      release_checksum h2 (some q) = some h3 ∧
      ∀ k, h3.blocks k = h.blocks k := by
  refine ⟨_, h.next,
    ⟨fun k => if k = h.next then none else h.blocks k, h.next + 1⟩,
    get_checksum_some_eq h junk pid, ?_, ?_⟩
  · simp only [release_checksum, Heap.free]
    refine congrArg some (Heap.ext' (fun k => ?_) rfl)
    by_cases hk : k = h.next <;> simp [hk]
  · intro k
    by_cases hk : k = h.next <;> simp [hk, hwf]

theorem C5_roundtrip_witness :
    emptyHeap.blocks emptyHeap.next = none ∧
    (∃ h2 q h3,
      get_checksum emptyHeap (fun _ => 7) (some 0) = some (h2, some q) ∧
      release_checksum h2 (some q) = some h3 ∧
      ∀ k, h3.blocks k = emptyHeap.blocks k) :=
  ⟨rfl, C5_roundtrip emptyHeap (fun _ => 7) 0 rfl⟩

/-- C6: for every non-null path input, the returned buffer is non-null
and NUL-terminated, and its content length excluding the terminator is 6,
strictly less than the allocated capacity of 12. -/
theorem C6_nul_terminated_fits (h : Heap) (junk : Nat → Nat) (pid : Nat) :
    ∃ h2 q blk, get_checksum h junk (some pid) = some (h2, some q) ∧
      h2.blocks q = some blk ∧ blk.bytes.contains 0 = true ∧
      cstrlen blk.bytes = 6 ∧ blk.bytes.length = 12 ∧
      cstrlen blk.bytes < blk.bytes.length := by
  refine ⟨_, h.next, ⟨AllocFamily.libcMalloc, checksumBytes⟩,
    get_checksum_some_eq h junk pid, by simp, by decide, by decide,
    by decide, by decide⟩

/-- C7: `get_checksum` never reads the path bytes or the pointed-to file:
its result is literally identical for any two non-null path pointers, and
the returned buffer contents are the same byte list across arbitrary
heaps (hence arbitrary path contents) and arbitrary malloc junk. -/
theorem C7_path_independence (ha hb : Heap) (junka junkb : Nat → Nat)
    (p1 p2 : Nat) :
    get_checksum ha junka (some p1) = get_checksum ha junka (some p2) ∧
    (∃ h1 q1 h2 q2 blk1 blk2,
      get_checksum ha junka (some p1) = some (h1, some q1) ∧
      get_checksum hb junkb (some p2) = some (h2, some q2) ∧
      h1.blocks q1 = some blk1 ∧ h2.blocks q2 = some blk2 ∧
      blk1.bytes = blk2.bytes) := by
  refine ⟨rfl, _, ha.next, _, hb.next, ⟨AllocFamily.libcMalloc, checksumBytes⟩,
    ⟨AllocFamily.libcMalloc, checksumBytes⟩,
    get_checksum_some_eq ha junka p1, get_checksum_some_eq hb junkb p2,
    by simp, by simp, rfl⟩

/-- C8: `get_checksum` neither modifies, frees, nor retains the
caller-owned path: after the call the path block still holds exactly its
old contents, and the returned buffer is a different block. -/
theorem C8_path_preserved (h : Heap) (junk : Nat → Nat) (pid : Nat)
    (b : Block) (hb : h.blocks pid = some b)
    (hwf : h.blocks h.next = none) :
    ∃ h2 q, get_checksum h junk (some pid) = some (h2, some q) ∧
      h2.blocks pid = some b ∧ q ≠ pid := by
  have hne : pid ≠ h.next := fun he => by rw [he, hwf] at hb; exact Option.noConfusion hb
  refine ⟨_, h.next, get_checksum_some_eq h junk pid, ?_, fun he => hne he.symm⟩
  simp [hne, hb]

theorem C8_path_preserved_witness :
    pathHeap.blocks 0 = some pathBlock ∧
    pathHeap.blocks pathHeap.next = none ∧
    (∃ h2 q, get_checksum pathHeap (fun _ => 7) (some 0) = some (h2, some q) ∧
      h2.blocks 0 = some pathBlock ∧ q ≠ 0) :=
  ⟨rfl, rfl, C8_path_preserved pathHeap (fun _ => 7) 0 pathBlock rfl rfl⟩

/-- C9: the `CString::new("abcdef").unwrap()` inside `get_checksum`
can never panic: the literal has no interior NUL byte, so the
construction always succeeds with the NUL-terminated bytes. -/
theorem C9_cstring_new_never_panics :
    cstring_new checksumLit = some (checksumLit ++ [0]) := by decide

/-- C10: assuming the 12-byte allocation succeeds, every write performed
by `get_checksum` stays inside the buffer — the partial write model
returns `none` on any out-of-bounds write, and here it always returns
`some`; the copied string (`"abcdef"` plus terminator) occupies 7 of the
12 bytes. -/
theorem C10_writes_in_bounds (h : Heap) (junk : Nat → Nat) (pid : Nat) :
    (get_checksum h junk (some pid)).isSome = true ∧
      (checksumLit ++ [0]).length ≤ 12 := by
  refine ⟨?_, by decide⟩
  rw [get_checksum_some_eq h junk pid]
  rfl
